import Mathlib

/-!
Shallow embedding of the crowd analytics and capacity planning engine
(`backend/app/services/analytics.py` and
`backend/app/services/hospital_analytics.py`).

Real arithmetic from the source is modelled over `ℚ`; Python `float('inf')`
results are modelled with `Option ℚ` (`none` means infinite / "Unstable");
dictionary fields that are absent on some code path are modelled with
`Option` fields (`none` means the key is missing from the returned dict).
-/

namespace Chin

/-- Python `round` to the nearest integer, ties to even (banker's rounding). -/
def roundHalfEven (q : ℚ) : ℤ :=
  let f := ⌊q⌋
  let r := q - f
  if r < 1/2 then f
  else if 1/2 < r then f + 1
  else if f % 2 = 0 then f else f + 1

/-- Python `round(q, 1)`. -/
def round1 (q : ℚ) : ℚ := (roundHalfEven (q * 10) : ℚ) / 10

/-- Python `round(q, 2)`. -/
def round2 (q : ℚ) : ℚ := (roundHalfEven (q * 100) : ℚ) / 100

/-- Python `round(q, 3)`. -/
def round3 (q : ℚ) : ℚ := (roundHalfEven (q * 1000) : ℚ) / 1000

/-- Python `int()` on a rational: truncation toward zero. -/
def pyTrunc (q : ℚ) : ℤ := if 0 ≤ q then ⌊q⌋ else ⌈q⌉

/-- Python `range(lo, hi)` over integers, as a list. -/
def intRange (lo hi : ℤ) : List ℤ :=
  (List.range (hi - lo).toNat).map (fun (i : ℕ) => lo + (i : ℤ))

theorem mem_intRange {lo hi c : ℤ} : c ∈ intRange lo hi ↔ lo ≤ c ∧ c < hi := by
  unfold intRange
  constructor
  · intro h
    obtain ⟨i, hi', hci⟩ := List.mem_map.mp h
    have hlt := List.mem_range.mp hi'
    omega
  · intro h
    exact List.mem_map.mpr ⟨(c - lo).toNat, List.mem_range.mpr (by omega), by omega⟩

/-- Mean of a list of integer counts (`np.mean`), 0 on the empty list
(the source only takes means of non-empty lists). -/
def listMeanZ (l : List ℤ) : ℚ := if l = [] then 0 else (l.sum : ℚ) / (l.length : ℚ)

/-- Maximum of a list of integer counts (`np.max`), 0 on the empty list. -/
def listMaxZ : List ℤ → ℤ
  | [] => 0
  | x :: xs => xs.foldl max x

/-- Minimum of a list of integer counts (`np.min`), 0 on the empty list. -/
def listMinZ : List ℤ → ℤ
  | [] => 0
  | x :: xs => xs.foldl min x

/-! ## HospitalAnalytics (`hospital_analytics.py`) -/

/-- Embeds `HospitalAnalytics.erlang_c_formula`: probability of waiting in queue. -/
def erlang_c_formula (arrival_rate service_rate : ℚ) (num_agents : ℤ) : ℚ :=
  if num_agents ≤ 0 ∨ service_rate ≤ 0 then 1
  else
    let intensity := arrival_rate / service_rate
    if (num_agents : ℚ) ≤ intensity then 1
    else
      let c := num_agents.toNat
      let erlang_b_numerator := intensity ^ c / (Nat.factorial c : ℚ)
      let erlang_b_sum :=
        ((List.range (c + 1)).map (fun n => intensity ^ n / (Nat.factorial n : ℚ))).sum
      let erlang_c :=
        erlang_b_numerator / (erlang_b_sum + erlang_b_numerator * ((num_agents : ℚ) - intensity))
      min (max erlang_c 0) 1

/-- Modelled from the spec: the Erlang-C closed form exactly as the
specification states it (Erlang-B term `B = a^c/c!` normalized by
`Σ_{n=0}^{c} a^n/n!`, then `Pw = B / (B×(1 − a/c) + (1 − B))`, clamped to
`[0,1]`), for comparison with `erlang_c_formula`. -/
def erlang_c_spec_form (arrival_rate service_rate : ℚ) (num_agents : ℤ) : ℚ :=
  if num_agents ≤ 0 ∨ service_rate ≤ 0 then 1
  else
    let a := arrival_rate / service_rate
    if (num_agents : ℚ) ≤ a then 1
    else
      let c := num_agents.toNat
      let B := (a ^ c / (Nat.factorial c : ℚ)) /
        ((List.range (c + 1)).map (fun n => a ^ n / (Nat.factorial n : ℚ))).sum
      let Pw := B / (B * (1 - a / (num_agents : ℚ)) + (1 - B))
      min (max Pw 0) 1

/-- Embeds `HospitalAnalytics.calculate_average_wait_time`: average wait in minutes;
`none` models the `float('inf')` result of the unstable branch. -/
def calculate_average_wait_time (arrival_rate service_rate : ℚ) (num_agents : ℤ) : Option ℚ :=
  if num_agents ≤ 0 ∨ service_rate ≤ 0 ∨ (num_agents : ℚ) * service_rate ≤ arrival_rate then
    none
  else
    let erlang_c := erlang_c_formula arrival_rate service_rate num_agents
    let wait_time_hours := erlang_c / ((num_agents : ℚ) * service_rate - arrival_rate)
    some (max 0 (wait_time_hours * 60))

/-- Embeds `HospitalAnalytics.estimate_arrival_rate_from_crowd` (the
`peak_person_count` argument is unused in the source as well). -/
def estimate_arrival_rate_from_crowd (average_person_count : ℚ) (peak_person_count : ℤ)
    (video_duration_minutes : ℚ) : ℚ :=
  if video_duration_minutes ≤ 0 then 0
  else max 0 (average_person_count * 2 * (60 / video_duration_minutes))

/-- Embeds `HospitalAnalytics.estimate_service_rate_from_context` (the
`available_staff` argument is unused in the source as well). -/
def estimate_service_rate_from_context (available_staff : ℤ) (area_sqm : ℚ) : ℚ :=
  let base_service_rate_per_agent : ℚ := 6
  let area_factor := if area_sqm < 200 then 1 else 200 / area_sqm
  max 1 (base_service_rate_per_agent * area_factor)

/-- Does the predicted wait at `c` agents meet the target (finite and at most
the target wait time)? -/
def waitMeetsTarget (arrival_rate service_rate target : ℚ) (c : ℤ) : Bool :=
  match calculate_average_wait_time arrival_rate service_rate c with
  | none => false
  | some w => w ≤ target

/-- One iteration of the optimum-tracking in
`HospitalAnalytics.calculate_optimal_staffing`: keep the candidate whenever
`wait_time <= target and wait_time < best_wait_time` (an infinite wait never
qualifies and an infinite best is beaten by any finite wait). -/
def selectStep (arrival_rate service_rate target : ℚ) (acc : ℤ × Option ℚ) (c : ℤ) :
    ℤ × Option ℚ :=
  match calculate_average_wait_time arrival_rate service_rate c with
  | none => acc
  | some w =>
    match acc.2 with
    | none => if w ≤ target then (c, some w) else acc
    | some b => if w ≤ target ∧ w < b then (c, some w) else acc

/-- Result dictionary of `HospitalAnalytics.calculate_optimal_staffing`.
`staffing_analysis` lists, per candidate agent count, the rounded wait time
(`none` models the `"Unstable"` string), probability of waiting and
utilization; `predicted_wait_time_minutes = none` models the `"High"` string. -/
structure StaffingRecommendation where
  recommended_nurses : ℤ
  additional_nurses_needed : ℤ
  current_available : ℤ
  arrival_rate_per_hour : ℚ
  service_rate_per_agent : ℚ
  system_intensity : ℚ
  predicted_wait_time_minutes : Option ℚ
  probability_waiting : ℚ
  system_utilization : ℚ
  staffing_analysis : List (ℤ × Option ℚ × ℚ × ℚ)
  confidence : ℚ
  deriving Repr, DecidableEq

/-- Embeds `HospitalAnalytics.calculate_optimal_staffing`. The single Python loop both
fills the `staffing_analysis` table and tracks the optimum; here the table is
built by a `map` and the optimum by a `foldl` over the same candidate list. -/
def calculate_optimal_staffing (average_person_count : ℚ)
    (peak_person_count current_nurses available_nurses : ℤ)
    (video_duration_minutes target_wait_time_minutes area_sqm : ℚ) :
    StaffingRecommendation :=
  let arrival_rate :=
    estimate_arrival_rate_from_crowd average_person_count peak_person_count
      video_duration_minutes
  let service_rate := estimate_service_rate_from_context available_nurses area_sqm
  let intensity := if 0 < service_rate then arrival_rate / service_rate else 0
  let min_agents := ⌈intensity⌉ + 1
  let candidates := intRange (max 1 (min_agents - 1)) (min_agents + 5)
  let analysis := candidates.map (fun c =>
    (c, (calculate_average_wait_time arrival_rate service_rate c).map round1,
     round3 (erlang_c_formula arrival_rate service_rate c),
     if 0 < c then round3 (intensity / (c : ℚ)) else 0))
  let sel := candidates.foldl
    (selectStep arrival_rate service_rate target_wait_time_minutes)
    (available_nurses, none)
  let optimal_staffing := sel.1
  let additional_staff := max 0 (optimal_staffing - available_nurses)
  let confidence :=
    min 1 ((optimal_staffing : ℚ) / ((max available_nurses 1 : ℤ) : ℚ) * (8/10) + 2/10)
  { recommended_nurses := optimal_staffing
    additional_nurses_needed := additional_staff
    current_available := available_nurses
    arrival_rate_per_hour := round1 arrival_rate
    service_rate_per_agent := round1 service_rate
    system_intensity := round2 intensity
    predicted_wait_time_minutes := sel.2.map round1
    probability_waiting := round3 (erlang_c_formula arrival_rate service_rate optimal_staffing)
    system_utilization :=
      if 0 < optimal_staffing then round3 (intensity / (optimal_staffing : ℚ)) else 0
    staffing_analysis := analysis
    confidence := round2 confidence }

/-- The Erlang-B style term the source computes: `a^c/c!` normalized by
`Σ_{n=0}^{c} a^n/n!`. -/
def erlang_b_term (a : ℚ) (c : ℕ) : ℚ :=
  (a ^ c / (Nat.factorial c : ℚ)) /
    ((List.range (c + 1)).map (fun n => a ^ n / (Nat.factorial n : ℚ))).sum

theorem erlang_b_sum_pos {a : ℚ} (ha : 0 < a) (c : ℕ) :
    0 < ((List.range (c + 1)).map (fun n => a ^ n / (Nat.factorial n : ℚ))).sum := by
  apply List.sum_pos
  · intro x hx
    obtain ⟨n, _, rfl⟩ := List.mem_map.mp hx
    exact div_pos (pow_pos ha n) (by exact_mod_cast Nat.factorial_pos n)
  · simp [List.range_succ]

/-- Key algebraic step: dividing numerator and denominator by the (positive)
normalizing sum. -/
theorem div_sum_normalize (N S k : ℚ) (hN : 0 < N) (hS : 0 < S) (hk : 0 < k) :
    N / (S + N * k) = N / S / (1 + N / S * k) := by
  have hden : S + N * k ≠ 0 := (add_pos hS (mul_pos hN hk)).ne'
  have hS' : S ≠ 0 := hS.ne'
  field_simp

/-- C1 (amended): in the stable regime `λ > 0`, `μ > 0`, `c ≥ 1`, `a = λ/μ < c`,
the code's Erlang-C value is `B / (1 + B·(c − a))` clamped to `[0,1]`, with
`B = (a^c/c!) / Σ_{n=0}^{c} a^n/n!` — not the spec's
`B / (B·(1 − a/c) + (1 − B))`. -/
theorem erlang_c_formula_closed_form (lam mu : ℚ) (c : ℤ)
    (hl : 0 < lam) (hm : 0 < mu) (hc : 1 ≤ c) (ha : lam / mu < (c : ℚ)) :
    erlang_c_formula lam mu c =
      min (max (erlang_b_term (lam / mu) c.toNat /
        (1 + erlang_b_term (lam / mu) c.toNat * ((c : ℚ) - lam / mu))) 0) 1 := by
  have h1 : ¬(c ≤ 0 ∨ mu ≤ 0) := by
    push_neg
    exact ⟨by omega, hm⟩
  have h2 : ¬((c : ℚ) ≤ lam / mu) := not_le.mpr ha
  have ha0 : 0 < lam / mu := div_pos hl hm
  have hsum := erlang_b_sum_pos ha0 c.toNat
  have hnum : 0 < (lam / mu) ^ c.toNat / (Nat.factorial c.toNat : ℚ) :=
    div_pos (pow_pos ha0 _) (by exact_mod_cast Nat.factorial_pos _)
  have hk : 0 < (c : ℚ) - lam / mu := sub_pos.mpr ha
  simp only [erlang_c_formula, if_neg h1, if_neg h2]
  rw [div_sum_normalize _ _ _ hnum hsum hk]
  rfl

theorem erlang_c_formula_closed_form_witness :
    erlang_c_formula 1 1 2 =
      min (max (erlang_b_term (1 / 1) (Int.toNat 2) /
        (1 + erlang_b_term (1 / 1) (Int.toNat 2) * (((2 : ℤ) : ℚ) - 1 / 1))) 0) 1 :=
  erlang_c_formula_closed_form 1 1 2 (by norm_num) (by norm_num) (by norm_num) (by norm_num)

/-- C1 (counterexample): at `λ = 1`, `μ = 1`, `c = 2` the code returns `1/6`
while the closed form written in the spec evaluates to `2/9`. -/
theorem erlang_c_formula_deviates_from_spec_form :
    erlang_c_formula 1 1 2 = 1/6 ∧ erlang_c_spec_form 1 1 2 = 2/9 ∧
      ((1 : ℚ)/6) ≠ 2/9 := by
  refine ⟨?_, ?_, by norm_num⟩ <;>
    norm_num [erlang_c_formula, erlang_c_spec_form, show Int.toNat 2 = 2 from rfl,
      List.range_succ, Nat.factorial]

/-- C4: `erlang_c_formula` returns exactly 1 when `c ≤ 0`, when `μ ≤ 0`, or
when the traffic intensity `a = λ/μ` satisfies `a ≥ c`; and returns exactly 0
when `a = 0` with `c ≥ 1` and `μ > 0`. -/
theorem erlang_c_formula_boundary (lam mu : ℚ) (c : ℤ) :
    (c ≤ 0 → erlang_c_formula lam mu c = 1) ∧
    (mu ≤ 0 → erlang_c_formula lam mu c = 1) ∧
    ((c : ℚ) ≤ lam / mu → 0 < mu → erlang_c_formula lam mu c = 1) ∧
    (lam / mu = 0 → 1 ≤ c → 0 < mu → erlang_c_formula lam mu c = 0) := by
  refine ⟨fun h => ?_, fun h => ?_, fun h hmu => ?_, fun h hc hmu => ?_⟩
  · simp [erlang_c_formula, Or.inl h]
  · simp [erlang_c_formula, Or.inr h]
  · by_cases h0 : c ≤ 0 ∨ mu ≤ 0
    · simp [erlang_c_formula, h0]
    · simp only [erlang_c_formula, if_neg h0, if_pos h]
  · have h0 : ¬(c ≤ 0 ∨ mu ≤ 0) := by
      push_neg
      exact ⟨by omega, hmu⟩
    have h2 : ¬((c : ℚ) ≤ lam / mu) := by
      rw [h]
      push_neg
      have hc0 : (0 : ℤ) < c := by omega
      exact_mod_cast hc0
    have hcn : c.toNat ≠ 0 := by omega
    rw [h] at h2
    simp only [erlang_c_formula, if_neg h0, h, if_neg h2, zero_pow hcn, zero_div, zero_mul,
      add_zero]
    norm_num

theorem erlang_c_formula_boundary_witness :
    erlang_c_formula 30 6 (-1) = 1 ∧ erlang_c_formula 30 (-2) 3 = 1 ∧
      erlang_c_formula 30 6 5 = 1 ∧ erlang_c_formula 0 6 2 = 0 :=
  ⟨(erlang_c_formula_boundary 30 6 (-1)).1 (by norm_num),
   (erlang_c_formula_boundary 30 (-2) 3).2.1 (by norm_num),
   (erlang_c_formula_boundary 30 6 5).2.2.1 (by norm_num) (by norm_num),
   (erlang_c_formula_boundary 0 6 2).2.2.2 (by norm_num) (by norm_num) (by norm_num)⟩

/-- Invariant of the optimum-tracking loop in `calculate_optimal_staffing`
after processing the candidates in `processed`: with no best wait recorded the
recommendation is still the fallback `avail` and no processed candidate meets
the target; with best wait `b` recorded, the recommendation is a processed
candidate whose wait is `b ≤ target`, minimal among all processed candidates
that meet the target. -/
def selInv (ar sr target : ℚ) (avail : ℤ) (processed : List ℤ) : ℤ × Option ℚ → Prop
  | (opt, none) => opt = avail ∧ ∀ c ∈ processed, waitMeetsTarget ar sr target c = false
  | (opt, some b) => calculate_average_wait_time ar sr opt = some b ∧ b ≤ target ∧
      opt ∈ processed ∧
      ∀ c ∈ processed, ∀ w, calculate_average_wait_time ar sr c = some w → w ≤ target → b ≤ w

theorem selectStep_preserves (ar sr target : ℚ) (avail : ℤ) (processed : List ℤ)
    (acc : ℤ × Option ℚ) (c : ℤ) (h : selInv ar sr target avail processed acc) :
    selInv ar sr target avail (processed ++ [c]) (selectStep ar sr target acc c) := by
  obtain ⟨opt, b⟩ := acc
  unfold selectStep
  cases hw : calculate_average_wait_time ar sr c with
  | none =>
    cases b with
    | none =>
      obtain ⟨h1, h2⟩ := h
      refine ⟨h1, ?_⟩
      intro c' hc'
      rcases List.mem_append.mp hc' with h' | h'
      · exact h2 c' h'
      · simp only [List.mem_singleton] at h'
        subst h'
        simp [waitMeetsTarget, hw]
    | some bv =>
      obtain ⟨h1, h2, h3, h4⟩ := h
      refine ⟨h1, h2, List.mem_append_left _ h3, ?_⟩
      intro c' hc' w hw' hwt
      rcases List.mem_append.mp hc' with h' | h'
      · exact h4 c' h' w hw' hwt
      · simp only [List.mem_singleton] at h'
        subst h'
        rw [hw] at hw'
        cases hw'
  | some w =>
    cases b with
    | none =>
      obtain ⟨h1, h2⟩ := h
      by_cases ht : w ≤ target
      · simp only [selectStep, if_pos ht]
        refine ⟨hw, ht, List.mem_append_right _ (by simp), ?_⟩
        intro c' hc' w' hw' hwt'
        rcases List.mem_append.mp hc' with h' | h'
        · have hww := h2 c' h'
          rw [waitMeetsTarget, hw'] at hww
          simp only [decide_eq_false_iff_not] at hww
          exact absurd hwt' hww
        · simp only [List.mem_singleton] at h'
          subst h'
          rw [hw] at hw'
          injection hw' with he
          exact le_of_eq he
      · simp only [selectStep, if_neg ht]
        refine ⟨h1, ?_⟩
        intro c' hc'
        rcases List.mem_append.mp hc' with h' | h'
        · exact h2 c' h'
        · simp only [List.mem_singleton] at h'
          subst h'
          simp [waitMeetsTarget, hw, ht]
    | some bv =>
      obtain ⟨h1, h2, h3, h4⟩ := h
      by_cases ht : w ≤ target ∧ w < bv
      · simp only [selectStep, if_pos ht]
        refine ⟨hw, ht.1, List.mem_append_right _ (by simp), ?_⟩
        intro c' hc' w' hw' hwt'
        rcases List.mem_append.mp hc' with h' | h'
        · exact le_trans (le_of_lt ht.2) (h4 c' h' w' hw' hwt')
        · simp only [List.mem_singleton] at h'
          subst h'
          rw [hw] at hw'
          injection hw' with he
          exact le_of_eq he
      · simp only [selectStep, if_neg ht]
        refine ⟨h1, h2, List.mem_append_left _ h3, ?_⟩
        intro c' hc' w' hw' hwt'
        rcases List.mem_append.mp hc' with h' | h'
        · exact h4 c' h' w' hw' hwt'
        · simp only [List.mem_singleton] at h'
          subst h'
          rw [hw] at hw'
          injection hw' with he
          subst he
          push_neg at ht
          exact ht hwt' 

theorem selectFold_inv (ar sr target : ℚ) (avail : ℤ) :
    ∀ (l processed : List ℤ) (acc : ℤ × Option ℚ),
      selInv ar sr target avail processed acc →
      selInv ar sr target avail (processed ++ l) (l.foldl (selectStep ar sr target) acc) := by
  intro l
  induction l with
  | nil =>
    intro processed acc h
    simpa using h
  | cons c l' ih =>
    intro processed acc h
    have h1 := selectStep_preserves ar sr target avail processed acc c h
    have h2 := ih (processed ++ [c]) _ h1
    simpa [List.append_assoc] using h2

theorem estimate_service_rate_pos (s : ℤ) (a : ℚ) :
    0 < estimate_service_rate_from_context s a :=
  lt_of_lt_of_le one_pos (le_max_left 1 _)

/-- C5 (amended): `calculate_optimal_staffing` evaluates exactly the candidate
agent counts from `max(1, ⌈a⌉)` through `⌈a⌉ + 5` inclusive (`a` the traffic
intensity); it recommends a qualifying candidate (finite predicted wait at most
the target) whose wait is minimal among all qualifying candidates — not the
smallest qualifying candidate — and recommends the currently available agent
count when no candidate qualifies. -/
theorem calculate_optimal_staffing_selection (avg : ℚ) (pk cur avail : ℤ)
    (dur target area ar sr : ℚ) (lo hi : ℤ)
    (har : ar = estimate_arrival_rate_from_crowd avg pk dur)
    (hsr : sr = estimate_service_rate_from_context avail area)
    (hlo : lo = max 1 ⌈ar / sr⌉) (hhi : hi = ⌈ar / sr⌉ + 5) :
    (∀ c : ℤ,
      c ∈ (calculate_optimal_staffing avg pk cur avail dur target area).staffing_analysis.map
        Prod.fst ↔ lo ≤ c ∧ c ≤ hi) ∧
    ((∀ c : ℤ, lo ≤ c → c ≤ hi → waitMeetsTarget ar sr target c = false) →
      (calculate_optimal_staffing avg pk cur avail dur target area).recommended_nurses = avail) ∧
    ((∃ c : ℤ, lo ≤ c ∧ c ≤ hi ∧ waitMeetsTarget ar sr target c = true) →
      ∃ b, calculate_average_wait_time ar sr
            (calculate_optimal_staffing avg pk cur avail dur target area).recommended_nurses =
          some b ∧ b ≤ target ∧
        ∀ c : ℤ, lo ≤ c → c ≤ hi → ∀ w, calculate_average_wait_time ar sr c = some w →
          w ≤ target → b ≤ w) := by
  subst har hsr hlo hhi
  have hsr0 := estimate_service_rate_pos avail area
  have hint :
      (if 0 < estimate_service_rate_from_context avail area then
        estimate_arrival_rate_from_crowd avg pk dur / estimate_service_rate_from_context avail area
      else 0) =
      estimate_arrival_rate_from_crowd avg pk dur / estimate_service_rate_from_context avail area :=
    if_pos hsr0
  have hanalysis :
      (calculate_optimal_staffing avg pk cur avail dur target area).staffing_analysis.map
        Prod.fst =
      intRange
        (max 1 (⌈estimate_arrival_rate_from_crowd avg pk dur /
          estimate_service_rate_from_context avail area⌉ + 1 - 1))
        (⌈estimate_arrival_rate_from_crowd avg pk dur /
          estimate_service_rate_from_context avail area⌉ + 1 + 5) := by
    simp only [calculate_optimal_staffing, hint, List.map_map]
    exact List.map_id _
  have hrec :
      (calculate_optimal_staffing avg pk cur avail dur target area).recommended_nurses =
      ((intRange
        (max 1 (⌈estimate_arrival_rate_from_crowd avg pk dur /
          estimate_service_rate_from_context avail area⌉ + 1 - 1))
        (⌈estimate_arrival_rate_from_crowd avg pk dur /
          estimate_service_rate_from_context avail area⌉ + 1 + 5)).foldl
        (selectStep (estimate_arrival_rate_from_crowd avg pk dur)
          (estimate_service_rate_from_context avail area) target)
        (avail, none)).1 := by
    simp only [calculate_optimal_staffing, hint]
  have hinv := selectFold_inv (estimate_arrival_rate_from_crowd avg pk dur)
    (estimate_service_rate_from_context avail area) target avail
    (intRange
      (max 1 (⌈estimate_arrival_rate_from_crowd avg pk dur /
        estimate_service_rate_from_context avail area⌉ + 1 - 1))
      (⌈estimate_arrival_rate_from_crowd avg pk dur /
        estimate_service_rate_from_context avail area⌉ + 1 + 5))
    [] (avail, none) (by exact ⟨rfl, by simp⟩)
  rw [List.nil_append] at hinv
  refine ⟨?_, ?_, ?_⟩
  · intro c
    rw [hanalysis, mem_intRange]
    omega
  · intro hnone
    rw [hrec]
    rcases hfold : (intRange
        (max 1 (⌈estimate_arrival_rate_from_crowd avg pk dur /
          estimate_service_rate_from_context avail area⌉ + 1 - 1))
        (⌈estimate_arrival_rate_from_crowd avg pk dur /
          estimate_service_rate_from_context avail area⌉ + 1 + 5)).foldl
        (selectStep (estimate_arrival_rate_from_crowd avg pk dur)
          (estimate_service_rate_from_context avail area) target)
        (avail, none) with ⟨opt, bb⟩
    rw [hfold] at hinv
    cases bb with
    | none => exact hinv.1
    | some b =>
      obtain ⟨h1, h2, h3, _⟩ := hinv
      have := hnone opt (by have := (mem_intRange.mp h3); omega)
        (by have := (mem_intRange.mp h3); omega)
      rw [waitMeetsTarget, h1] at this
      simp only [decide_eq_false_iff_not] at this
      exact absurd h2 this
  · rintro ⟨c, hc1, hc2, hcq⟩
    rw [hrec]
    rcases hfold : (intRange
        (max 1 (⌈estimate_arrival_rate_from_crowd avg pk dur /
          estimate_service_rate_from_context avail area⌉ + 1 - 1))
        (⌈estimate_arrival_rate_from_crowd avg pk dur /
          estimate_service_rate_from_context avail area⌉ + 1 + 5)).foldl
        (selectStep (estimate_arrival_rate_from_crowd avg pk dur)
          (estimate_service_rate_from_context avail area) target)
        (avail, none) with ⟨opt, bb⟩
    rw [hfold] at hinv
    cases bb with
    | none =>
      have := hinv.2 c (mem_intRange.mpr (by omega))
      rw [hcq] at this
      cases this
    | some b =>
      obtain ⟨h1, h2, _, h4⟩ := hinv
      exact ⟨b, h1, h2, fun c' hc1' hc2' w hw hwt =>
        h4 c' (mem_intRange.mpr (by omega)) w hw hwt⟩

set_option maxHeartbeats 2000000 in
/-- C5 (counterexample): with average count 15 over 60 minutes in a 100 sqm
area (so `λ = 30`, `μ = 6`, `a = 5`, candidates 5..10) and target wait 10
minutes, candidate 6 already meets the target, yet the code recommends 10 —
not the smallest qualifying candidate. -/
theorem calculate_optimal_staffing_not_smallest :
    (calculate_optimal_staffing 15 0 4 4 60 10 100).recommended_nurses = 10 ∧
      waitMeetsTarget 30 6 10 6 = true ∧ (6 : ℤ) < 10 := by
  refine ⟨?_, ?_, by norm_num⟩
  · norm_num [calculate_optimal_staffing, estimate_arrival_rate_from_crowd,
      estimate_service_rate_from_context, intRange, selectStep, calculate_average_wait_time,
      erlang_c_formula, List.range_succ, Nat.factorial, List.foldl,
      show Int.toNat 5 = 5 from rfl, show Int.toNat 6 = 6 from rfl,
      show Int.toNat 7 = 7 from rfl, show Int.toNat 8 = 8 from rfl,
      show Int.toNat 9 = 9 from rfl, show Int.toNat 10 = 10 from rfl]
  · norm_num [waitMeetsTarget, calculate_average_wait_time, erlang_c_formula,
      List.range_succ, Nat.factorial, show Int.toNat 6 = 6 from rfl]

set_option maxHeartbeats 2000000 in
theorem calculate_optimal_staffing_selection_witness :
    ∃ b, calculate_average_wait_time 30 6
        (calculate_optimal_staffing 15 0 4 4 60 10 100).recommended_nurses = some b ∧
      b ≤ 10 := by
  have h := calculate_optimal_staffing_selection 15 0 4 4 60 10 100 30 6 5 10
    (by norm_num [estimate_arrival_rate_from_crowd])
    (by norm_num [estimate_service_rate_from_context])
    (by norm_num [estimate_arrival_rate_from_crowd, estimate_service_rate_from_context])
    (by norm_num [estimate_arrival_rate_from_crowd, estimate_service_rate_from_context])
  have hq : waitMeetsTarget 30 6 10 6 = true := by
    norm_num [waitMeetsTarget, calculate_average_wait_time, erlang_c_formula,
      List.range_succ, Nat.factorial, show Int.toNat 6 = 6 from rfl]
  obtain ⟨b, hb1, hb2, _⟩ := h.2.2 ⟨6, by norm_num, by norm_num, hq⟩
  exact ⟨b, hb1, hb2⟩

/-! ## CrowdAnalytics (`analytics.py`) -/

/-- Result dictionary of `CrowdAnalytics.calculate_crowd_density`. -/
structure CrowdDensity where
  person_count : ℤ
  area_sqm : ℚ
  density_per_sqm : ℚ
  density_level : String
  severity_score : ℕ
  deriving Repr, DecidableEq

/-- The raw density the source computes before rounding:
`person_count / area_sqm if area_sqm > 0 else 0`. -/
def crowd_density_raw (person_count : ℤ) (area_sqm : ℚ) : ℚ :=
  if 0 < area_sqm then (person_count : ℚ) / area_sqm else 0

/-- Embeds `CrowdAnalytics.calculate_crowd_density`. -/
def calculate_crowd_density (person_count : ℤ) (area_sqm : ℚ) : CrowdDensity :=
  let density := crowd_density_raw person_count area_sqm
  let ls : String × ℕ :=
    if density < 1/10 then ("Very Low", 1)
    else if density < 2/10 then ("Low", 2)
    else if density < 4/10 then ("Moderate", 3)
    else if density < 6/10 then ("High", 4)
    else ("Very High", 5)
  { person_count := person_count
    area_sqm := area_sqm
    density_per_sqm := round3 density
    density_level := ls.1
    severity_score := ls.2 }

/-- One emitted bottleneck period (the source formats `start_time`/`end_time`
from these timestamps as MM:SS strings; the raw timestamps are kept here). -/
structure BottleneckPeriod where
  start_timestamp : ℚ
  end_timestamp : ℚ
  duration_seconds : ℚ
  peak_person_count : ℤ
  average_person_count : ℚ
  severity : String
  severity_score : ℕ
  frame_count : ℕ
  deriving Repr, DecidableEq

/-- The `current_bottleneck` accumulator dictionary of
`CrowdAnalytics.detect_bottlenecks`. -/
structure OpenBottleneck where
  start_frame : ℤ
  start_timestamp : ℚ
  end_frame : ℤ
  end_timestamp : ℚ
  peak_count : ℤ
  frame_count : ℕ
  person_counts : List ℤ
  deriving Repr, DecidableEq

/-- Severity grading of a closed bottleneck period from its peak/baseline
ratio (the source inlines this if-chain twice, verbatim). -/
def severity_of_ratio (severity_ratio : ℚ) : String × ℕ :=
  if 2 ≤ severity_ratio then ("Critical", 5)
  else if 7/4 ≤ severity_ratio then ("High", 4)
  else if 3/2 ≤ severity_ratio then ("Moderate", 3)
  else ("Low", 2)

/-- Closing an open bottleneck into an emitted period (`avg_count` is the
series-wide baseline used for the severity ratio). -/
def closePeriod (avg_count : ℚ) (cb : OpenBottleneck) : BottleneckPeriod :=
  let duration := cb.end_timestamp - cb.start_timestamp
  let avg_in := listMeanZ cb.person_counts
  let severity_ratio := if 0 < avg_count then (cb.peak_count : ℚ) / avg_count else 1
  let sevPair := severity_of_ratio severity_ratio
  { start_timestamp := cb.start_timestamp
    end_timestamp := cb.end_timestamp
    duration_seconds := round1 duration
    peak_person_count := cb.peak_count
    average_person_count := round1 avg_in
    severity := sevPair.1
    severity_score := sevPair.2
    frame_count := cb.frame_count }

/-- One iteration of the walk in `CrowdAnalytics.detect_bottlenecks` over a
zipped `(person_count, (timestamp, frame_number))` sample. A sample is in a
bottleneck when `person_count >= bottleneck_threshold`; leaving a bottleneck
emits it only when `frame_count >= min_bottleneck_duration`. -/
def bottleneckStep (threshold avg_count : ℚ) (min_duration : ℕ)
    (acc : List BottleneckPeriod × Option OpenBottleneck) (p : ℤ × ℚ × ℤ) :
    List BottleneckPeriod × Option OpenBottleneck :=
  if threshold ≤ (p.1 : ℚ) then
    match acc.2 with
    | none =>
      (acc.1, some ⟨p.2.2, p.2.1, p.2.2, p.2.1, p.1, 1, [p.1]⟩)
    | some cb =>
      (acc.1, some { cb with
        end_frame := p.2.2
        end_timestamp := p.2.1
        peak_count := max cb.peak_count p.1
        frame_count := cb.frame_count + 1
        person_counts := cb.person_counts ++ [p.1] })
  else
    match acc.2 with
    | none => acc
    | some cb =>
      if min_duration ≤ cb.frame_count then (acc.1 ++ [closePeriod avg_count cb], none)
      else (acc.1, none)

/-- End-of-series handling in `CrowdAnalytics.detect_bottlenecks`: a still-open
bottleneck is emitted under the same minimum-duration gate. -/
def finalizePeriods (avg_count : ℚ) (min_duration : ℕ)
    (st : List BottleneckPeriod × Option OpenBottleneck) : List BottleneckPeriod :=
  match st.2 with
  | some cb =>
    if min_duration ≤ cb.frame_count then st.1 ++ [closePeriod avg_count cb] else st.1
  | none => st.1

/-- Result dictionary of `CrowdAnalytics.detect_bottlenecks`. The empty-input
early return carries only the first three keys; the `Option` fields are
`none` there (absent from the returned dict). -/
structure BottleneckResult where
  bottlenecks_detected : ℕ
  bottleneck_periods : List BottleneckPeriod
  total_bottleneck_duration_seconds : ℚ
  threshold_used : Option ℚ
  average_person_count : Option ℚ
  max_person_count : Option ℤ
  deriving Repr, DecidableEq

/-- Embeds `CrowdAnalytics.detect_bottlenecks`; `detections` carries each sample's
`person_count`, `frames_data` each frame's `(timestamp, frame_number)`; the
source walks `zip(detections, frames_data)` but takes the baseline mean and
max over all of `detections`. The unused `fps` parameter of the source is
omitted. -/
def detect_bottlenecks (detections : List ℤ) (frames_data : List (ℚ × ℤ))
    (bottleneck_threshold_multiplier : ℚ) (min_bottleneck_duration : ℕ) : BottleneckResult :=
  if detections = [] ∨ frames_data = [] then
    { bottlenecks_detected := 0
      bottleneck_periods := []
      total_bottleneck_duration_seconds := 0
      threshold_used := none
      average_person_count := none
      max_person_count := none }
  else
    let person_counts := detections
    let avg_count := listMeanZ person_counts
    let max_count := listMaxZ person_counts
    let bottleneck_threshold := avg_count * bottleneck_threshold_multiplier
    let st := (detections.zip frames_data).foldl
      (bottleneckStep bottleneck_threshold avg_count min_bottleneck_duration) ([], none)
    let bottleneck_periods := finalizePeriods avg_count min_bottleneck_duration st
    let total_duration := (bottleneck_periods.map (·.duration_seconds)).sum
    { bottlenecks_detected := bottleneck_periods.length
      bottleneck_periods := bottleneck_periods
      total_bottleneck_duration_seconds := round1 total_duration
      threshold_used := some (round1 bottleneck_threshold)
      average_person_count := some (round1 avg_count)
      max_person_count := some max_count }

theorem bottleneckStep_preserves_min (threshold avg : ℚ) (minDur : ℕ)
    (acc : List BottleneckPeriod × Option OpenBottleneck) (p : ℤ × ℚ × ℤ)
    (h : ∀ q ∈ acc.1, minDur ≤ q.frame_count) :
    ∀ q ∈ (bottleneckStep threshold avg minDur acc p).1, minDur ≤ q.frame_count := by
  obtain ⟨ps, ob⟩ := acc
  cases ob with
  | none =>
    by_cases hth : threshold ≤ (p.1 : ℚ)
    · simp only [bottleneckStep, if_pos hth]
      exact h
    · simp only [bottleneckStep, if_neg hth]
      exact h
  | some cb =>
    by_cases hth : threshold ≤ (p.1 : ℚ)
    · simp only [bottleneckStep, if_pos hth]
      exact h
    · simp only [bottleneckStep, if_neg hth]
      by_cases hd : minDur ≤ cb.frame_count
      · simp only [if_pos hd]
        intro q hq
        rcases List.mem_append.mp hq with h' | h'
        · exact h q h'
        · simp only [List.mem_singleton] at h'
          subst h'
          exact hd
      · simp only [if_neg hd]
        exact h

theorem bottleneckFold_min (threshold avg : ℚ) (minDur : ℕ) :
    ∀ (l : List (ℤ × ℚ × ℤ)) (acc : List BottleneckPeriod × Option OpenBottleneck),
      (∀ q ∈ acc.1, minDur ≤ q.frame_count) →
      ∀ q ∈ (l.foldl (bottleneckStep threshold avg minDur) acc).1, minDur ≤ q.frame_count := by
  intro l
  induction l with
  | nil =>
    intro acc h
    simpa using h
  | cons x l' ih =>
    intro acc h
    simp only [List.foldl_cons]
    exact ih _ (bottleneckStep_preserves_min threshold avg minDur acc x h)

theorem finalizePeriods_min (avg : ℚ) (minDur : ℕ)
    (st : List BottleneckPeriod × Option OpenBottleneck)
    (h : ∀ q ∈ st.1, minDur ≤ q.frame_count) :
    ∀ q ∈ finalizePeriods avg minDur st, minDur ≤ q.frame_count := by
  obtain ⟨ps, ob⟩ := st
  cases ob with
  | none => exact h
  | some cb =>
    by_cases hd : minDur ≤ cb.frame_count
    · simp only [finalizePeriods, if_pos hd]
      intro q hq
      rcases List.mem_append.mp hq with h' | h'
      · exact h q h'
      · simp only [List.mem_singleton] at h'
        subst h'
        exact hd
    · simp only [finalizePeriods, if_neg hd]
      exact h

/-- C2: every period `detect_bottlenecks` emits has
`frame_count ≥ min_bottleneck_duration`; runs at or above the threshold that
are shorter than the minimum duration are never emitted, whether they end
mid-series or at series end. -/
theorem detect_bottlenecks_min_duration (detections : List ℤ) (frames_data : List (ℚ × ℤ))
    (mult : ℚ) (minDur : ℕ) (hmin : 1 ≤ minDur) :
    ∀ p ∈ (detect_bottlenecks detections frames_data mult minDur).bottleneck_periods,
      minDur ≤ p.frame_count := by
  intro p hp
  by_cases hempty : detections = [] ∨ frames_data = []
  · simp only [detect_bottlenecks, if_pos hempty] at hp
    simp at hp
  · simp only [detect_bottlenecks, if_neg hempty] at hp
    exact finalizePeriods_min _ _ _
      (bottleneckFold_min _ _ _ _ ([], none) (by simp)) p hp

set_option maxHeartbeats 1000000 in
/-- Evaluation of `detect_bottlenecks` on the spec's scenario B series
`[5, 5, 20, 25, 20, 5, 5]` (timestamps 0..6, one frame per second) with
multiplier 1.5 and minimum duration 2: baseline is `85/7 ≈ 12.14`, threshold
`255/14 ≈ 18.21`, and the single emitted period covers the samples
`20, 25, 20`. -/
theorem scenarioB_detect_eval :
    detect_bottlenecks [5, 5, 20, 25, 20, 5, 5]
        [(0, 0), (1, 1), (2, 2), (3, 3), (4, 4), (5, 5), (6, 6)] (3/2) 2 =
      { bottlenecks_detected := 1
        bottleneck_periods := [⟨2, 4, 2, 25, 217/10, "Critical", 5, 3⟩]
        total_bottleneck_duration_seconds := 2
        threshold_used := some (91/5)
        average_person_count := some (121/10)
        max_person_count := some 25 } := by
  norm_num [detect_bottlenecks, finalizePeriods, bottleneckStep, closePeriod, severity_of_ratio,
    listMeanZ, listMaxZ, round1, roundHalfEven, List.foldl, List.zip, List.zipWith,
    List.cons_ne_nil]

theorem detect_bottlenecks_min_duration_witness :
    (1 ≤ 2) ∧ 2 ≤ (BottleneckPeriod.mk 2 4 2 25 (217/10) "Critical" 5 3).frame_count := by
  refine ⟨by norm_num, ?_⟩
  have h := detect_bottlenecks_min_duration [5, 5, 20, 25, 20, 5, 5]
    [(0, 0), (1, 1), (2, 2), (3, 3), (4, 4), (5, 5), (6, 6)] (3/2) 2 (by norm_num)
  exact h _ (by rw [scenarioB_detect_eval]; simp)

/-- C3 (counterexample): on scenario B the series baseline the code reports is
`12.1` (mean `85/7 ≈ 12.14`), not `≈ 11.4`, and the severity ratio is
`25/(85/7) = 35/17 ≈ 2.06`, not `≈ 2.19`. -/
theorem detect_bottlenecks_scenarioB_baseline_cex :
    (detect_bottlenecks [5, 5, 20, 25, 20, 5, 5]
        [(0, 0), (1, 1), (2, 2), (3, 3), (4, 4), (5, 5), (6, 6)] (3/2) 2).average_person_count =
      some (121/10) ∧
    (121 : ℚ)/10 ≠ 57/5 ∧
    (25 : ℚ) / listMeanZ [5, 5, 20, 25, 20, 5, 5] = 35/17 ∧
    (35 : ℚ)/17 ≠ 35/16 := by
  refine ⟨by rw [scenarioB_detect_eval], by norm_num, ?_, by norm_num⟩
  norm_num [listMeanZ, List.cons_ne_nil]

/-- C3 (amended): on scenario B with minimum duration 2 and multiplier 1.5,
`detect_bottlenecks` emits exactly one period covering exactly the three
consecutive samples with counts 20, 25, 20 (timestamps 2..4, 3 frames), with
peak count 25 and severity "Critical" (severity score 5); the series baseline
is `85/7` (reported as 12.1) and the severity ratio `35/17 ≈ 2.06`, still in
the Critical band. -/
theorem detect_bottlenecks_scenarioB :
    detect_bottlenecks [5, 5, 20, 25, 20, 5, 5]
        [(0, 0), (1, 1), (2, 2), (3, 3), (4, 4), (5, 5), (6, 6)] (3/2) 2 =
      { bottlenecks_detected := 1
        bottleneck_periods := [⟨2, 4, 2, 25, 217/10, "Critical", 5, 3⟩]
        total_bottleneck_duration_seconds := 2
        threshold_used := some (91/5)
        average_person_count := some (121/10)
        max_person_count := some 25 } ∧
    (25 : ℚ) / listMeanZ [5, 5, 20, 25, 20, 5, 5] = 35/17 ∧
    severity_of_ratio ((35 : ℚ)/17) = ("Critical", 5) := by
  refine ⟨scenarioB_detect_eval, ?_, ?_⟩
  · norm_num [listMeanZ, List.cons_ne_nil]
  · norm_num [severity_of_ratio]

/-- C6 (counterexample): on the empty series the early return of
`detect_bottlenecks` has no `threshold_used` entry at all (the key is absent
from the returned dict), rather than defining the threshold as 0. -/
theorem detect_bottlenecks_empty_no_threshold :
    (detect_bottlenecks [] [] (3/2) 3).bottleneck_periods = [] ∧
    (detect_bottlenecks [] [] (3/2) 3).threshold_used ≠ some 0 :=
  ⟨rfl, fun h => Option.noConfusion h⟩

/-- C6 (amended): on an empty input series `detect_bottlenecks` returns zero
bottleneck periods with total duration 0 and never raises, but the
threshold-used (and baseline/max) fields are omitted from the result rather
than defined as 0. -/
theorem detect_bottlenecks_empty (mult : ℚ) (minDur : ℕ) :
    detect_bottlenecks [] [] mult minDur =
      { bottlenecks_detected := 0
        bottleneck_periods := []
        total_bottleneck_duration_seconds := 0
        threshold_used := none
        average_person_count := none
        max_person_count := none } := rfl

/-- C7: `calculate_crowd_density` computes density `n/a`, defined as 0 when
`a ≤ 0` (never raising), reports it rounded to 3 decimals, and classifies with
upper-edge-inclusive breakpoints: density < 0.1 is "Very Low" (1), exactly 0.1
is "Low" (2), exactly 0.2 is "Moderate" (3), exactly 0.4 is "High" (4) and
exactly 0.6 is "Very High" (5). -/
theorem calculate_crowd_density_spec (n : ℤ) (a : ℚ) (hn : 0 ≤ n) :
    (calculate_crowd_density n a).density_per_sqm = round3 (crowd_density_raw n a) ∧
    (a ≤ 0 → crowd_density_raw n a = 0) ∧
    (0 < a → crowd_density_raw n a = (n : ℚ) / a) ∧
    (crowd_density_raw n a < 1/10 →
      (calculate_crowd_density n a).density_level = "Very Low" ∧
        (calculate_crowd_density n a).severity_score = 1) ∧
    (crowd_density_raw n a = 1/10 →
      (calculate_crowd_density n a).density_level = "Low" ∧
        (calculate_crowd_density n a).severity_score = 2) ∧
    (crowd_density_raw n a = 2/10 →
      (calculate_crowd_density n a).density_level = "Moderate" ∧
        (calculate_crowd_density n a).severity_score = 3) ∧
    (crowd_density_raw n a = 4/10 →
      (calculate_crowd_density n a).density_level = "High" ∧
        (calculate_crowd_density n a).severity_score = 4) ∧
    (crowd_density_raw n a = 6/10 →
      (calculate_crowd_density n a).density_level = "Very High" ∧
        (calculate_crowd_density n a).severity_score = 5) := by
  refine ⟨rfl, ?_, ?_, ?_, ?_, ?_, ?_, ?_⟩
  · intro h
    simp [crowd_density_raw, not_lt.mpr h]
  · intro h
    simp [crowd_density_raw, h]
  · intro h
    constructor <;> (simp only [calculate_crowd_density]; rw [if_pos h])
  · intro h
    constructor <;> (simp only [calculate_crowd_density, h]; norm_num)
  · intro h
    constructor <;> (simp only [calculate_crowd_density, h]; norm_num)
  · intro h
    constructor <;> (simp only [calculate_crowd_density, h]; norm_num)
  · intro h
    constructor <;> (simp only [calculate_crowd_density, h]; norm_num)

theorem calculate_crowd_density_spec_witness :
    (calculate_crowd_density 1 10).density_level = "Low" ∧
    (calculate_crowd_density 1 10).severity_score = 2 ∧
    (calculate_crowd_density 3 (-5)).density_per_sqm = 0 := by
  have h1 := calculate_crowd_density_spec 1 10 (by norm_num)
  have h2 := calculate_crowd_density_spec 3 (-5) (by norm_num)
  have hr : crowd_density_raw 1 10 = 1/10 := by norm_num [crowd_density_raw]
  have h0 : crowd_density_raw 3 (-5) = 0 := h2.2.1 (by norm_num)
  refine ⟨(h1.2.2.2.2.1 hr).1, (h1.2.2.2.2.1 hr).2, ?_⟩
  rw [h2.1, h0]
  norm_num [round3, roundHalfEven]

/-- One chart bucket of `CrowdAnalytics.create_visualization_data` (the source
also formats `timestamp` as an MM:SS `time` string). -/
structure VizBucket where
  timestamp : ℚ
  average : ℚ
  min : ℤ
  max : ℤ
  samples : ℕ
  deriving Repr, DecidableEq

/-- Variance of a list of integer counts; `np.std` is its square root, which
is irrational in general, so the un-rooted variance is kept here. -/
def listVarZ (l : List ℤ) : ℚ :=
  if l = [] then 0
  else ((l.map (fun x => ((x : ℚ) - listMeanZ l) ^ 2)).sum) / (l.length : ℚ)

/-- The whole-series summary statistics of `create_visualization_data`
(`std_deviation` is reported in the source as the rounded square root of
`variance`). -/
structure VizSummary where
  overall_average : ℚ
  overall_min : ℤ
  overall_max : ℤ
  variance : ℚ
  total_samples : ℕ
  deriving Repr, DecidableEq

/-- Result dictionary of `create_visualization_data`; the empty-input early
return carries only `chart_data` and an empty `summary` dict, modelled with
`none` fields. -/
structure VizData where
  chart_data : List VizBucket
  interval_seconds : Option ℤ
  total_intervals : Option ℕ
  summary : Option VizSummary
  deriving Repr, DecidableEq

/-- Closing one aggregation interval into a chart bucket (`data` is the
buffered `(person_count, timestamp)` pairs of the interval). -/
def mkBucket (start : ℚ) (data : List (ℤ × ℚ)) : VizBucket :=
  let counts := data.map (·.1)
  { timestamp := start
    average := round1 (listMeanZ counts)
    min := listMinZ counts
    max := listMaxZ counts
    samples := data.length }

/-- One iteration of the grouping loop in `create_visualization_data`: on
crossing the current interval's end, flush the buffered samples (when any)
and re-align the interval start to `int(timestamp // interval) * interval`;
then buffer the sample. -/
def vizStep (interval_seconds : ℤ) (acc : List VizBucket × ℚ × List (ℤ × ℚ))
    (p : ℤ × ℚ) : List VizBucket × ℚ × List (ℤ × ℚ) :=
  let intervals := acc.1
  let cur_start := acc.2.1
  let cur_data := acc.2.2
  if cur_start + (interval_seconds : ℚ) ≤ p.2 then
    let intervals' :=
      if cur_data = [] then intervals else intervals ++ [mkBucket cur_start cur_data]
    (intervals', ((⌊p.2 / (interval_seconds : ℚ)⌋ * interval_seconds : ℤ) : ℚ), [p])
  else
    (intervals, cur_start, cur_data ++ [p])

/-- The "Add last interval" step of `create_visualization_data`: flush the
final partial bucket when it is non-empty. -/
def vizFlush (st : List VizBucket × ℚ × List (ℤ × ℚ)) : List VizBucket :=
  if st.2.2 = [] then st.1 else st.1 ++ [mkBucket st.2.1 st.2.2]

/-- Embeds `CrowdAnalytics.create_visualization_data`; `detections` carries each
sample's `person_count` and `frames_data` each frame's timestamp; the loop
walks `zip(detections, frames_data)` while the summary uses all of
`detections`. -/
def create_visualization_data (detections : List ℤ) (frames_data : List ℚ)
    (interval_seconds : ℤ) : VizData :=
  if detections = [] ∨ frames_data = [] then
    { chart_data := [], interval_seconds := none, total_intervals := none, summary := none }
  else
    let st := (detections.zip frames_data).foldl (vizStep interval_seconds) ([], 0, [])
    let intervals := vizFlush st
    let all_counts := detections
    { chart_data := intervals
      interval_seconds := some interval_seconds
      total_intervals := some intervals.length
      summary := some
        { overall_average := round1 (listMeanZ all_counts)
          overall_min := listMinZ all_counts
          overall_max := listMaxZ all_counts
          variance := listVarZ all_counts
          total_samples := all_counts.length } }

theorem vizFold_sum (k : ℤ) :
    ∀ (l : List (ℤ × ℚ)) (ivs : List VizBucket) (cs : ℚ) (cd : List (ℤ × ℚ)),
      ((vizFlush (l.foldl (vizStep k) (ivs, cs, cd))).map (·.samples)).sum =
        ((ivs.map (·.samples)).sum + cd.length) + l.length := by
  intro l
  induction l with
  | nil =>
    intro ivs cs cd
    simp only [List.foldl_nil, List.length_nil, add_zero, vizFlush]
    by_cases hcd : cd = []
    · simp [hcd]
    · simp [hcd, mkBucket]
  | cons p l' ih =>
    intro ivs cs cd
    simp only [List.foldl_cons]
    by_cases hb : cs + (k : ℚ) ≤ p.2
    · by_cases hcd : cd = []
      · have hstep : vizStep k (ivs, cs, cd) p =
            (ivs, ((⌊p.2 / (k : ℚ)⌋ * k : ℤ) : ℚ), [p]) := by
          simp [vizStep, hb, hcd]
        rw [hstep, ih]
        simp [hcd]
        omega
      · have hstep : vizStep k (ivs, cs, cd) p =
            (ivs ++ [mkBucket cs cd], ((⌊p.2 / (k : ℚ)⌋ * k : ℤ) : ℚ), [p]) := by
          simp [vizStep, hb, hcd]
        rw [hstep, ih]
        simp [mkBucket]
        omega
    · have hstep : vizStep k (ivs, cs, cd) p = (ivs, cs, cd ++ [p]) := by
        simp [vizStep, hb]
      rw [hstep, ih]
      simp
      omega

/-- C8: for a non-empty series (equal-length detections and frame data) the
bucket sample counts of `create_visualization_data` sum to the length of the
input series: the final partial bucket is always flushed, never dropped. -/
theorem create_visualization_data_sum (detections : List ℤ) (frames_data : List ℚ)
    (k : ℤ) (hlen : detections.length = frames_data.length) (hne : detections ≠ [])
    (hk : 0 < k) :
    (((create_visualization_data detections frames_data k).chart_data).map (·.samples)).sum =
      detections.length := by
  have hne2 : frames_data ≠ [] := by
    intro h
    subst h
    simp at hlen
    exact hne hlen
  have hempty : ¬(detections = [] ∨ frames_data = []) := by tauto
  simp only [create_visualization_data, if_neg hempty]
  rw [vizFold_sum]
  simp [List.length_zip, hlen]

theorem create_visualization_data_sum_witness :
    (((create_visualization_data [5, 6] [0, 12] 10).chart_data).map (·.samples)).sum = 2 :=
  create_visualization_data_sum [5, 6] [0, 12] 10 rfl (by simp) (by norm_num)

/-- Embeds `CrowdAnalytics._get_zone_name`. -/
def get_zone_name (row col : ℤ) : String :=
  (["Top", "Middle", "Bottom"].getD row.toNat "") ++ "-" ++
    (["Left", "Center", "Right"].getD col.toNat "")

/-- One zone entry of `CrowdAnalytics.analyze_crowd_distribution`. -/
structure ZoneInfo where
  zone_id : String
  row : ℤ
  col : ℤ
  position : String
  detection_count : ℕ
  percentage : ℚ
  density_level : String
  deriving Repr, DecidableEq

/-- Building one zone's entry from the zone counters: percentage of all valid
detections (0 when there are none), density classified from the raw
percentage, the stored percentage rounded to 1 decimal. -/
def buildZone (cnt : ℤ × ℤ → ℕ) (total : ℕ) (row col : ℤ) : ZoneInfo :=
  let count := cnt (row, col)
  let percentage := if 0 < total then (count : ℚ) / (total : ℚ) * 100 else 0
  let density :=
    if 20 < percentage then "Very High"
    else if 15 < percentage then "High"
    else if 10 < percentage then "Moderate"
    else if 5 < percentage then "Low"
    else "Very Low"
  { zone_id := "zone_" ++ toString row ++ "_" ++ toString col
    row := row
    col := col
    position := get_zone_name row col
    detection_count := count
    percentage := round1 percentage
    density_level := density }

/-- The 3×3 grid's `(row, col)` pairs in the order of the source's nested
loops (rows outer, columns inner). -/
def zonePairs : List (ℤ × ℤ) :=
  [(0, 0), (0, 1), (0, 2), (1, 0), (1, 1), (1, 2), (2, 0), (2, 1), (2, 2)]

/-- Processing one raw `bbox` list in `analyze_crowd_distribution`: only
length-4 boxes are processed; the zone index is `min(int(center/zone_dim), 2)`
per axis (unclamped below; a negative index raises `KeyError` on the zone
dict, and a zero zone dimension raises `ZeroDivisionError`, both modelled as
`Except.error`). The state is the zone counter function and the number of
counted boxes. -/
def processBox (zone_width zone_height : ℚ) (st : Except String ((ℤ × ℤ → ℕ) × ℕ))
    (bbox : List ℚ) : Except String ((ℤ × ℤ → ℕ) × ℕ) :=
  match st with
  | .error e => .error e
  | .ok (cnt, total) =>
    match bbox with
    | [x1, y1, x2, y2] =>
      if zone_width = 0 ∨ zone_height = 0 then .error "ZeroDivisionError"
      else
        let center_x := (x1 + x2) / 2
        let center_y := (y1 + y2) / 2
        let col := min (pyTrunc (center_x / zone_width)) 2
        let row := min (pyTrunc (center_y / zone_height)) 2
        if row < 0 ∨ col < 0 then .error "KeyError"
        else .ok (fun p => if p = (row, col) then cnt p + 1 else cnt p, total + 1)
    | _ => .ok (cnt, total)

/-- Stable descending sort by percentage, as the source's
`hotspots.sort(key=lambda x: x["percentage"], reverse=True)`. -/
def insertDesc (z : ZoneInfo) : List ZoneInfo → List ZoneInfo
  | [] => [z]
  | y :: ys => if y.percentage ≤ z.percentage then z :: y :: ys else y :: insertDesc z ys

def sortDesc (l : List ZoneInfo) : List ZoneInfo := l.foldr insertDesc []

/-- Result dictionary of `analyze_crowd_distribution` (the `grid_size` entry,
a constant `{rows: 3, cols: 3}`, is not modelled; `total_detections_analyzed`
is absent from the early "No data" return). -/
structure SpatialDistribution where
  distribution_pattern : String
  total_detections_analyzed : Option ℕ
  zones : List ZoneInfo
  hotspots : List ZoneInfo
  deriving Repr, DecidableEq

/-- Embeds `CrowdAnalytics.analyze_crowd_distribution`; each sample carries the raw
`bbox` lists of its detections (a sample whose `detections` key is missing or
empty contributes an empty list); `frames_data` only matters through its
emptiness check. -/
def analyze_crowd_distribution (detections : List (List (List ℚ)))
    (frames_data : List Unit) (frame_width frame_height : ℤ) :
    Except String SpatialDistribution :=
  if detections = [] ∨ frames_data = [] then
    .ok { distribution_pattern := "No data"
          total_detections_analyzed := none
          zones := []
          hotspots := [] }
  else
    let zone_width := (frame_width : ℚ) / 3
    let zone_height := (frame_height : ℚ) / 3
    let st := detections.foldl
      (fun s sample => sample.foldl (processBox zone_width zone_height) s)
      (Except.ok ((fun _ => 0, 0) : (ℤ × ℤ → ℕ) × ℕ))
    match st with
    | .error e => .error e
    | .ok (cnt, total) =>
      let zones := zonePairs.map (fun p => buildZone cnt total p.1 p.2)
      let hotspots := sortDesc (zones.filter (fun z => 15 < z.percentage))
      let pattern :=
        if 3 ≤ hotspots.length then "Distributed"
        else if hotspots.length = 2 then "Bi-modal"
        else if hotspots.length = 1 then "Concentrated"
        else "Uniform"
      .ok { distribution_pattern := pattern
            total_detections_analyzed := some total
            zones := zones
            hotspots := hotspots }

/-- The result `analyze_crowd_distribution` actually produces when the inputs
are non-empty but no sample carries a length-4 box: a normal "Uniform"
analysis over nine all-zero zones, not the "No data" sentinel. -/
def zeroDistribution : SpatialDistribution :=
  { distribution_pattern := "Uniform"
    total_detections_analyzed := some 0
    zones := zonePairs.map (fun p => buildZone (fun _ => 0) 0 p.1 p.2)
    hotspots := [] }

theorem processBox_error (zw zh : ℚ) (e : String) (b : List ℚ) :
    processBox zw zh (.error e) b = .error e := rfl

theorem processBox_skip (zw zh : ℚ) (st : Except String ((ℤ × ℤ → ℕ) × ℕ))
    (b : List ℚ) (h : b.length ≠ 4) : processBox zw zh st b = st := by
  cases st with
  | error e => rfl
  | ok s =>
    obtain ⟨cnt, total⟩ := s
    cases b with
    | nil => rfl
    | cons x1 t1 =>
      cases t1 with
      | nil => rfl
      | cons y1 t2 =>
        cases t2 with
        | nil => rfl
        | cons x2 t3 =>
          cases t3 with
          | nil => rfl
          | cons y2 t4 =>
            cases t4 with
            | nil => simp at h
            | cons z t5 => rfl

theorem sampleFold_skip (zw zh : ℚ) :
    ∀ (l : List (List ℚ)) (st : Except String ((ℤ × ℤ → ℕ) × ℕ)),
      (∀ b ∈ l, b.length ≠ 4) → l.foldl (processBox zw zh) st = st := by
  intro l
  induction l with
  | nil =>
    intro st h
    rfl
  | cons b l' ih =>
    intro st h
    simp only [List.foldl_cons]
    rw [processBox_skip zw zh st b (h b (by simp))]
    exact ih st (fun b' hb' => h b' (by simp [hb']))

theorem allFold_skip (zw zh : ℚ) :
    ∀ (samples : List (List (List ℚ))) (st : Except String ((ℤ × ℤ → ℕ) × ℕ)),
      (∀ s ∈ samples, ∀ b ∈ s, b.length ≠ 4) →
      samples.foldl (fun s sample => sample.foldl (processBox zw zh) s) st = st := by
  intro samples
  induction samples with
  | nil =>
    intro st h
    rfl
  | cons s samples' ih =>
    intro st h
    simp only [List.foldl_cons]
    rw [sampleFold_skip zw zh s st (h s (by simp))]
    exact ih st (fun s' hs' => h s' (by simp [hs']))

theorem analyze_zero_valid_general (detections : List (List (List ℚ)))
    (frames_data : List Unit) (fw fh : ℤ) (h1 : detections ≠ []) (h2 : frames_data ≠ [])
    (h3 : ∀ s ∈ detections, ∀ b ∈ s, b.length ≠ 4) :
    analyze_crowd_distribution detections frames_data fw fh = .ok zeroDistribution := by
  have hemp : ¬(detections = [] ∨ frames_data = []) := by tauto
  simp only [analyze_crowd_distribution, if_neg hemp]
  rw [allFold_skip _ _ _ _ h3]
  have hfilter :
      (zonePairs.map (fun p => buildZone (fun _ => 0) 0 p.1 p.2)).filter
        (fun z => 15 < z.percentage) = [] := by
    norm_num [zonePairs, buildZone, round1, roundHalfEven, List.filter]
  simp only [hfilter]
  simp [zeroDistribution, sortDesc]

/-- C9 (counterexample): on a non-empty sample list whose single sample has no
bounding boxes at all (zero valid detections), `analyze_crowd_distribution`
does not return the "No data" sentinel with empty zones: it returns a
"Uniform" analysis with nine zones. -/
theorem analyze_crowd_distribution_no_sentinel :
    analyze_crowd_distribution [[]] [()] 100 100 = .ok zeroDistribution ∧
    zeroDistribution.distribution_pattern = "Uniform" ∧
    zeroDistribution.distribution_pattern ≠ "No data" ∧
    zeroDistribution.zones.length = 9 := by
  refine ⟨?_, rfl, by decide, by simp [zeroDistribution, zonePairs]⟩
  exact analyze_zero_valid_general [[]] [()] 100 100 (by simp) (by simp)
    (by intro s hs b hb; simp only [List.mem_singleton] at hs; subst hs; simp at hb)

/-- C9 (amended): the "No data" sentinel (with empty zones and hotspots, no
raise) is returned exactly when the detections list or the frames list is
empty; when both are non-empty but no sample carries a valid (length-4) box,
the function instead returns — still without raising — a "Uniform" analysis
with nine zones of zero detections and no hotspots. -/
theorem analyze_crowd_distribution_zero_detections (detections : List (List (List ℚ)))
    (frames_data : List Unit) (fw fh : ℤ) :
    (detections = [] ∨ frames_data = [] →
      analyze_crowd_distribution detections frames_data fw fh =
        .ok { distribution_pattern := "No data", total_detections_analyzed := none,
              zones := [], hotspots := [] }) ∧
    (detections ≠ [] → frames_data ≠ [] →
      (∀ s ∈ detections, ∀ b ∈ s, b.length ≠ 4) →
      analyze_crowd_distribution detections frames_data fw fh = .ok zeroDistribution) := by
  constructor
  · intro hemp
    simp only [analyze_crowd_distribution, if_pos hemp]
  · intro h1 h2 h3
    exact analyze_zero_valid_general detections frames_data fw fh h1 h2 h3

theorem analyze_crowd_distribution_zero_detections_witness :
    analyze_crowd_distribution [] [] 100 100 =
      .ok { distribution_pattern := "No data", total_detections_analyzed := none,
            zones := [], hotspots := [] } ∧
    analyze_crowd_distribution [[[1, 2, 3]]] [()] 100 100 = .ok zeroDistribution := by
  constructor
  · exact (analyze_crowd_distribution_zero_detections [] [] 100 100).1 (Or.inl rfl)
  · refine (analyze_crowd_distribution_zero_detections [[[1, 2, 3]]] [()] 100 100).2
      (by simp) (by simp) ?_
    intro s hs b hb
    simp only [List.mem_singleton] at hs
    subst hs
    simp only [List.mem_singleton] at hb
    subst hb
    simp

/-- The result `analyze_crowd_distribution` produces for a single sample with
the single degenerate box `[5,5,5,5]` in a 100×100 frame: the box is counted
(it has 4 coordinates), lands in zone (0,0) and makes it a 100% hotspot. -/
def cexDistribution : SpatialDistribution :=
  { distribution_pattern := "Concentrated"
    total_detections_analyzed := some 1
    zones := [⟨"zone_0_0", 0, 0, "Top-Left", 1, 100, "Very High"⟩,
      ⟨"zone_0_1", 0, 1, "Top-Center", 0, 0, "Very Low"⟩,
      ⟨"zone_0_2", 0, 2, "Top-Right", 0, 0, "Very Low"⟩,
      ⟨"zone_1_0", 1, 0, "Middle-Left", 0, 0, "Very Low"⟩,
      ⟨"zone_1_1", 1, 1, "Middle-Center", 0, 0, "Very Low"⟩,
      ⟨"zone_1_2", 1, 2, "Middle-Right", 0, 0, "Very Low"⟩,
      ⟨"zone_2_0", 2, 0, "Bottom-Left", 0, 0, "Very Low"⟩,
      ⟨"zone_2_1", 2, 1, "Bottom-Center", 0, 0, "Very Low"⟩,
      ⟨"zone_2_2", 2, 2, "Bottom-Right", 0, 0, "Very Low"⟩]
    hotspots := [⟨"zone_0_0", 0, 0, "Top-Left", 1, 100, "Very High"⟩] }

set_option maxHeartbeats 1000000 in
theorem analyze_degenerate_box_eval :
    analyze_crowd_distribution [[[5, 5, 5, 5]]] [()] 100 100 = .ok cexDistribution := by
  rw [cexDistribution]
  norm_num [analyze_crowd_distribution, processBox, buildZone, zonePairs, pyTrunc,
    round1, roundHalfEven, sortDesc, insertDesc, get_zone_name, List.foldl, List.filter]
  decide

/-- C10 (counterexample): the box `[5,5,5,5]` is malformed by the claim's
criterion (`x2 > x1` fails), yet `analyze_crowd_distribution` counts it: it
contributes to zone (0,0) and to the total of analyzed detections. -/
theorem analyze_crowd_distribution_counts_degenerate :
    analyze_crowd_distribution [[[5, 5, 5, 5]]] [()] 100 100 = .ok cexDistribution ∧
    cexDistribution.total_detections_analyzed = some 1 ∧
    ¬((5 : ℚ) < 5) :=
  ⟨analyze_degenerate_box_eval, rfl, by norm_num⟩

theorem list_length_four {α : Type} {b : List α} (h : b.length = 4) :
    ∃ x1 x2 x3 x4, b = [x1, x2, x3, x4] := by
  rcases b with _ | ⟨a1, _ | ⟨a2, _ | ⟨a3, _ | ⟨a4, _ | ⟨a5, t⟩⟩⟩⟩⟩
  · simp at h
  · simp at h
  · simp at h
  · simp at h
  · exact ⟨a1, a2, a3, a4, rfl⟩
  · simp only [List.length_cons] at h
    omega

theorem sampleFold_count (zw zh : ℚ) :
    ∀ (l : List (List ℚ)) (st : Except String ((ℤ × ℤ → ℕ) × ℕ)) (c : ℤ × ℤ → ℕ) (t : ℕ),
      l.foldl (processBox zw zh) st = .ok (c, t) →
      ∃ c0 t0, st = .ok (c0, t0) ∧ t = t0 + l.countP (fun b => b.length == 4) := by
  intro l
  induction l with
  | nil =>
    intro st c t hf
    exact ⟨c, t, hf, by simp⟩
  | cons b l' ih =>
    intro st c t hf
    simp only [List.foldl_cons] at hf
    obtain ⟨c1, t1, hstep, ht⟩ := ih _ c t hf
    by_cases hlen : b.length = 4
    · obtain ⟨x1, y1, x2, y2, rfl⟩ := list_length_four hlen
      cases st with
      | error e =>
        rw [processBox_error] at hstep
        exact Except.noConfusion hstep
      | ok s0 =>
        obtain ⟨c0, t0⟩ := s0
        refine ⟨c0, t0, rfl, ?_⟩
        have ht1 : t1 = t0 + 1 := by
          simp only [processBox] at hstep
          split at hstep
          · exact Except.noConfusion hstep
          · split at hstep
            · exact Except.noConfusion hstep
            · injection hstep with h'
              have := congrArg Prod.snd h'
              simpa using this.symm
        rw [ht, ht1]
        simp only [List.countP_cons, hlen]
        simp
        omega
    · rw [processBox_skip zw zh st b hlen] at hstep
      refine ⟨c1, t1, hstep, ?_⟩
      rw [ht]
      simp only [List.countP_cons]
      simp [hlen]

theorem allFold_count (zw zh : ℚ) :
    ∀ (samples : List (List (List ℚ))) (st : Except String ((ℤ × ℤ → ℕ) × ℕ))
      (c : ℤ × ℤ → ℕ) (t : ℕ),
      samples.foldl (fun s sample => sample.foldl (processBox zw zh) s) st = .ok (c, t) →
      ∃ c0 t0, st = .ok (c0, t0) ∧
        t = t0 + ((samples.map (fun s => s.countP (fun b => b.length == 4))).sum) := by
  intro samples
  induction samples with
  | nil =>
    intro st c t hf
    exact ⟨c, t, hf, by simp⟩
  | cons s samples' ih =>
    intro st c t hf
    simp only [List.foldl_cons] at hf
    obtain ⟨c1, t1, hstep, ht⟩ := ih _ c t hf
    obtain ⟨c0, t0, hst, ht1⟩ := sampleFold_count zw zh s st c1 t1 hstep
    refine ⟨c0, t0, hst, ?_⟩
    rw [ht, ht1]
    simp only [List.map_cons, List.sum_cons]
    omega

/-- C10 (amended): a box is processed iff its raw `bbox` has exactly 4
entries — degeneracy (`x2 ≤ x1` or `y2 ≤ y1`) is not checked. Boxes without
4 entries are skipped without affecting the state (no zone count, no total,
no abort), and on any successful analysis over non-empty inputs the total of
analyzed detections is exactly the number of length-4 boxes. -/
theorem analyze_crowd_distribution_len4_only :
    (∀ (zw zh : ℚ) (st : Except String ((ℤ × ℤ → ℕ) × ℕ)) (b : List ℚ),
      b.length ≠ 4 → processBox zw zh st b = st) ∧
    (∀ (detections : List (List (List ℚ))) (frames_data : List Unit) (fw fh : ℤ)
      (r : SpatialDistribution),
      analyze_crowd_distribution detections frames_data fw fh = .ok r →
      detections ≠ [] → frames_data ≠ [] →
      r.total_detections_analyzed =
        some ((detections.map (fun s => s.countP (fun b => b.length == 4))).sum)) := by
  constructor
  · exact fun zw zh st b h => processBox_skip zw zh st b h
  · intro detections frames_data fw fh r hr h1 h2
    have hemp : ¬(detections = [] ∨ frames_data = []) := by tauto
    simp only [analyze_crowd_distribution, if_neg hemp] at hr
    cases hst : detections.foldl
        (fun s sample => sample.foldl (processBox ((fw : ℚ) / 3) ((fh : ℚ) / 3)) s)
        (Except.ok ((fun _ => 0, 0) : (ℤ × ℤ → ℕ) × ℕ)) with
    | error e =>
      rw [hst] at hr
      exact Except.noConfusion hr
    | ok s0 =>
      obtain ⟨cnt, total⟩ := s0
      rw [hst] at hr
      obtain ⟨c0, t0, hinit, ht⟩ := allFold_count _ _ detections _ cnt total hst
      have ht0 : t0 = 0 := by
        injection hinit with h'
        have := congrArg Prod.snd h'
        simpa using this.symm
      injection hr with h'
      rw [← h']
      rw [ht, ht0]
      simp

set_option maxHeartbeats 1000000 in
theorem analyze_crowd_distribution_len4_only_witness :
    processBox 1 1 (Except.ok ((fun _ => 0, 0) : (ℤ × ℤ → ℕ) × ℕ)) [1, 2, 3] =
      Except.ok ((fun _ => 0, 0) : (ℤ × ℤ → ℕ) × ℕ) ∧
    cexDistribution.total_detections_analyzed = some 1 := by
  constructor
  · exact analyze_crowd_distribution_len4_only.1 1 1 _ [1, 2, 3] (by simp)
  · have h := analyze_crowd_distribution_len4_only.2 [[[5, 5, 5, 5]]] [()] 100 100
      cexDistribution analyze_degenerate_box_eval (by simp) (by simp)
    rw [h]
    simp

end Chin
